import Mathlib

/-!
Verification of the decision-and-learning loop of a StarCraft II DQN agent.

The development shallowly embeds the agent code:
* the epsilon-greedy exploration schedule (`BaseAgent.epsilon_greedy`,
  `CompassAgent.epsilon_greedy`),
* the multi-head TD-target and loss computation (`BaseAgent.optimize`),
* target-network synchronization (`BaseAgent.update_target_net`,
  `BaseAgent._build_model`),
* reward shaping and beacon/marine distance (`CompassAgent.reward_shaping`,
  `CompassAgent.calculate_distance`),
* action legality dispatch (`BaseAgent.get_action`,
  `CompassAgent.translate_to_PYSC2_action`).

Real tensors are embedded as lists of rationals; distances, which use
`math.hypot`, live in `ℝ`; machine floats are idealized as exact reals.
-/

namespace SC2Agent

/-! ## Exploration policy (`BaseAgent.epsilon_greedy`, lines 107-117)

`epsilon = eps_end + (eps_start - eps_end) * exp(-1. * steps_done / eps_decay)`
computed from the current counter, after which `steps_done` is incremented by 1.
The same formula appears verbatim in `CompassAgent.epsilon_greedy`
(src/nico/assets/agents/BaseAgent.py lines 255-262). -/

/-- Hyperparameters of the epsilon schedule (`eps_start`, `eps_end`,
`eps_decay` fields set in `BaseAgent.__init__`). -/
structure EpsParams where
  eps_start : ℝ
  eps_end : ℝ
  eps_decay : ℝ

/-- The epsilon value the code assigns for a given `steps_done` counter:
`self.epsilon = self.eps_end + (self.eps_start - self.eps_end) * np.exp(-1. * self.steps_done / self.eps_decay)`. -/
noncomputable def epsilonOf (p : EpsParams) (steps_done : ℕ) : ℝ :=
  p.eps_end + (p.eps_start - p.eps_end) * Real.exp (-1 * (steps_done : ℝ) / p.eps_decay)

/-- The mutable policy state touched by `epsilon_greedy`: the stored
`self.epsilon` and the monotone counter `self.steps_done`. -/
structure PolicyState where
  epsilon : ℝ
  steps_done : ℕ

/-- State effect of one `epsilon_greedy()` call: recompute `self.epsilon`
from the current `self.steps_done`, then `self.steps_done += 1`.  (The
random draw of `'random'`/`'greedy'` reads the freshly computed epsilon but
mutates no further state.) -/
noncomputable def epsilon_greedy (p : EpsParams) (s : PolicyState) : PolicyState :=
  { epsilon := epsilonOf p s.steps_done, steps_done := s.steps_done + 1 }

/-- Which branch of `choose_action` runs after the draw. -/
inductive Choice where
  | random
  | greedy
deriving DecidableEq

/-- State effect of one `choose_action` call (`BaseAgent.choose_action`,
lines 120-152): `self.choice = self.epsilon_greedy()` runs first,
unconditionally; neither the random nor the greedy branch touches
`epsilon` or `steps_done` afterwards.  `CompassAgent.choose_action`
(lines 201-226) has the same structure. -/
noncomputable def choose_action_state (p : EpsParams) (s : PolicyState) (_c : Choice) : PolicyState :=
  epsilon_greedy p s

/-- Policy state after a sequence of decisions with the given branch choices. -/
noncomputable def run_decisions (p : EpsParams) (s : PolicyState) (cs : List Choice) : PolicyState :=
  cs.foldl (choose_action_state p) s

theorem run_decisions_nil (p : EpsParams) (s : PolicyState) :
    run_decisions p s [] = s := rfl

theorem run_decisions_cons (p : EpsParams) (s : PolicyState) (c : Choice) (cs : List Choice) :
    run_decisions p s (c :: cs) = run_decisions p (choose_action_state p s c) cs := rfl

theorem run_decisions_steps_done (p : EpsParams) (s : PolicyState) (cs : List Choice) :
    (run_decisions p s cs).steps_done = s.steps_done + cs.length := by
  induction cs generalizing s with
  | nil => rfl
  | cons c cs ih =>
      rw [run_decisions_cons, ih]
      simp [choose_action_state, epsilon_greedy]
      omega

theorem epsilonOf_zero (p : EpsParams) : epsilonOf p 0 = p.eps_start := by
  simp [epsilonOf]

theorem epsilonOf_antitone (p : EpsParams)
    (hse : p.eps_end ≤ p.eps_start) (hd : 0 < p.eps_decay) :
    Antitone (epsilonOf p) := by
  intro m n hmn
  unfold epsilonOf
  have harg : -1 * (n : ℝ) / p.eps_decay ≤ -1 * (m : ℝ) / p.eps_decay := by
    rw [div_le_div_iff₀ hd hd]
    have : (m : ℝ) ≤ (n : ℝ) := Nat.cast_le.mpr hmn
    nlinarith
  have hexp := Real.exp_le_exp.mpr harg
  have hc : (0 : ℝ) ≤ p.eps_start - p.eps_end := by linarith
  nlinarith [Real.exp_pos (-1 * (n : ℝ) / p.eps_decay)]

theorem epsilonOf_tendsto (p : EpsParams) (hd : 0 < p.eps_decay) :
    Filter.Tendsto (epsilonOf p) Filter.atTop (nhds p.eps_end) := by
  have harg : Filter.Tendsto (fun n : ℕ => -1 * (n : ℝ) / p.eps_decay)
      Filter.atTop Filter.atBot := by
    have hdiv : Filter.Tendsto (fun n : ℕ => (n : ℝ) / p.eps_decay)
        Filter.atTop Filter.atTop :=
      tendsto_natCast_atTop_atTop.atTop_div_const hd
    have := Filter.tendsto_neg_atTop_atBot.comp hdiv
    refine this.congr fun n => ?_
    simp
    ring
  have hexp : Filter.Tendsto (fun n : ℕ => Real.exp (-1 * (n : ℝ) / p.eps_decay))
      Filter.atTop (nhds 0) := Real.tendsto_exp_atBot.comp harg
  have hmul := Filter.Tendsto.const_mul (p.eps_start - p.eps_end) hexp
  have hadd := hmul.const_add p.eps_end
  have h0 : p.eps_end + (p.eps_start - p.eps_end) * 0 = p.eps_end := by ring
  rw [h0] at hadd
  refine hadd.congr fun n => ?_
  simp [epsilonOf, Function.comp]

/-- **C2.** The epsilon assigned (and used) at a decision with counter
`steps_done` equals `eps_end + (eps_start - eps_end) * exp(-steps_done / eps_decay)`;
hence, assuming `eps_start ≥ eps_end > 0` and `eps_decay > 0`, epsilon equals
`eps_start` at `steps_done = 0`, is monotonically non-increasing in
`steps_done`, and converges to `eps_end` as `steps_done → ∞`. -/
theorem C2_epsilon_schedule (p : EpsParams)
    (hse : p.eps_end ≤ p.eps_start) (hend : 0 < p.eps_end) (hd : 0 < p.eps_decay) :
    (∀ s : PolicyState, (epsilon_greedy p s).epsilon
        = p.eps_end + (p.eps_start - p.eps_end)
            * Real.exp (-((s.steps_done : ℝ) / p.eps_decay)))
    ∧ epsilonOf p 0 = p.eps_start
    ∧ Antitone (epsilonOf p)
    ∧ Filter.Tendsto (epsilonOf p) Filter.atTop (nhds p.eps_end) := by
  refine ⟨fun s => ?_, epsilonOf_zero p, epsilonOf_antitone p hse hd,
    epsilonOf_tendsto p hd⟩
  have harg : -1 * (s.steps_done : ℝ) / p.eps_decay
      = -((s.steps_done : ℝ) / p.eps_decay) := by ring
  show p.eps_end + (p.eps_start - p.eps_end)
      * Real.exp (-1 * (s.steps_done : ℝ) / p.eps_decay) = _
  rw [harg]

/-- Witness for C2 at the concrete hyperparameters of `BaseAgent.__init__`
(`eps_start = 1.0`, `eps_end = 0.05`, `eps_decay = 8000`). -/
theorem C2_epsilon_schedule_witness :
    epsilonOf ⟨1, 1/20, 8000⟩ 0 = 1
    ∧ Antitone (epsilonOf ⟨1, 1/20, 8000⟩)
    ∧ Filter.Tendsto (epsilonOf ⟨1, 1/20, 8000⟩) Filter.atTop (nhds ((1:ℝ)/20)) := by
  obtain ⟨-, h2, h3, h4⟩ := C2_epsilon_schedule ⟨1, 1/20, 8000⟩
    (by norm_num) (by norm_num) (by norm_num)
  exact ⟨h2, h3, h4⟩

/-- **C7.** Both branches of `choose_action` share the single
`epsilon_greedy()` call made before the branch: the policy-state effect of a
decision is independent of the branch, each decision increments `steps_done`
by exactly 1 and recomputes `epsilon` from the counter as updated by all
previous decisions, and after `n` decisions `steps_done` equals its initial
value plus `n`, irrespective of which branches were taken. -/
theorem C7_steps_done_per_decision (p : EpsParams) (s : PolicyState) (cs : List Choice) :
    (∀ c : Choice, choose_action_state p s c = epsilon_greedy p s)
    ∧ (∀ c : Choice, (choose_action_state p s c).steps_done = s.steps_done + 1)
    ∧ (∀ c : Choice, (choose_action_state p s c).epsilon = epsilonOf p s.steps_done)
    ∧ (run_decisions p s cs).steps_done = s.steps_done + cs.length :=
  ⟨fun _ => rfl, fun _ => rfl, fun _ => rfl, run_decisions_steps_done p s cs⟩

/-! ## Optimizer (`BaseAgent.optimize`, lines 181-240)

The network forward passes are opaque collaborators; the batch below
carries their outputs (`self.net(state_batch)` and
`self.target_net(next_state_batch)`, one value vector per sample and head)
together with the replayed indices, rewards and step types. -/

/-- `t.gather(1, idx)` with one index per row (`optimize` lines 201-203):
for each sample, the predicted value at that sample's chosen index. -/
def gatherRows (rows : List (List ℚ)) (idx : List ℕ) : List ℚ :=
  List.zipWith (fun row i => row.getD i 0) rows idx

/-- `t.max(1)[0]` for one row (`optimize` lines 209-211): the maximum entry
of one sample's value vector. -/
def rowMax (row : List ℚ) : ℚ :=
  row.foldl max (row.headD 0)

/-- `torch.tensor((next_max * gamma) + reward_batch)` (`optimize` lines
215, 219, 223): elementwise `next_max[i] * gamma + reward[i]`. -/
def td_target_raw (gamma : ℚ) (next_max reward : List ℚ) : List ℚ :=
  List.zipWith (fun m r => m * gamma + r) next_max reward

/-- `td_target[np.where(step_type_batch == 2)] = reward_batch[np.where(step_type_batch == 2)]`
(`optimize` lines 216, 220, 224): override the entries at terminal
transitions (`StepType.LAST` encodes as 2) with the raw reward. -/
def td_override (step_type : List ℕ) (reward target : List ℚ) : List ℚ :=
  List.zipWith (fun sr t => if sr.1 = 2 then sr.2 else t) (step_type.zip reward) target

/-- The TD-target pipeline of one head: raw bootstrap then terminal override. -/
def td_target (gamma : ℚ) (next_max reward : List ℚ) (step_type : List ℕ) : List ℚ :=
  td_override step_type reward (td_target_raw gamma next_max reward)

/-- `F.mse_loss(input, target)`: mean of the elementwise squared differences. -/
def mse_loss (input target : List ℚ) : ℚ :=
  (List.zipWith (fun a b => (a - b) ^ 2) input target).sum / input.length

/-- One sampled minibatch as seen inside `optimize`, with the two forward
passes (`self.net` on `state_batch`, `self.target_net` on
`next_state_batch`) already applied per head. -/
structure OptimBatch where
  q_action : List (List ℚ)
  q_x : List (List ℚ)
  q_y : List (List ℚ)
  next_q_action : List (List ℚ)
  next_q_x : List (List ℚ)
  next_q_y : List (List ℚ)
  action : List ℕ
  x_coord : List ℕ
  y_coord : List ℕ
  reward : List ℚ
  step_type : List ℕ

/-- The loss value returned by `BaseAgent.optimize`: per head, gather the
online prediction at the chosen index and build the TD target from the
target network's row maxima; concatenate the three heads' predictions and
targets; return their mean squared error. -/
def optimize_loss (gamma : ℚ) (b : OptimBatch) : ℚ :=
  let state_action_values := gatherRows b.q_action b.action
  let x_q_values := gatherRows b.q_x b.x_coord
  let y_q_values := gatherRows b.q_y b.y_coord
  let next_state_values := b.next_q_action.map rowMax
  let next_x_q_values := b.next_q_x.map rowMax
  let next_y_q_values := b.next_q_y.map rowMax
  let td_target_actions := td_target gamma next_state_values b.reward b.step_type
  let td_target_x_coord := td_target gamma next_x_q_values b.reward b.step_type
  let td_target_y_coord := td_target gamma next_y_q_values b.reward b.step_type
  let q_values_cat := state_action_values ++ x_q_values ++ y_q_values
  let td_target_cat := td_target_actions ++ td_target_x_coord ++ td_target_y_coord
  mse_loss q_values_cat td_target_cat

theorem rowMax_nil : rowMax [] = 0 := rfl

theorem rowMax_spec (row : List ℚ) (h : row ≠ []) :
    rowMax row ∈ row ∧ ∀ x ∈ row, x ≤ rowMax row := by
  unfold rowMax
  rcases hx : row.max? with - | m
  · exact absurd (List.max?_eq_none_iff.mp hx) h
  · have hub : ∀ b ∈ row, b ≤ m :=
      (List.max?_le_iff (fun _ _ _ => sup_le_iff) hx).mp le_rfl
    have hh : row.headD 0 ∈ row := by
      cases row with
      | nil => exact absurd rfl h
      | cons a t => exact List.mem_cons_self a t
    have hhm : row.headD 0 ≤ m := hub _ hh
    rw [List.foldl_max, hx]
    simp only [Option.getD_some]
    rw [sup_eq_right.mpr hhm]
    exact ⟨List.max?_mem (fun a b => max_choice a b) hx, hub⟩

theorem gatherRows_length (rows : List (List ℚ)) (idx : List ℕ) :
    (gatherRows rows idx).length = min rows.length idx.length :=
  List.length_zipWith _ _ _

theorem td_target_length (gamma : ℚ) (next_max reward : List ℚ) (step_type : List ℕ)
    (h1 : next_max.length = reward.length) (h2 : step_type.length = reward.length) :
    (td_target gamma next_max reward step_type).length = reward.length := by
  unfold td_target td_override td_target_raw
  rw [List.length_zipWith, List.length_zip, List.length_zipWith, h1, h2]
  omega

theorem gatherRows_getD (rows : List (List ℚ)) (idx : List ℕ) (i : ℕ)
    (h1 : i < rows.length) (h2 : i < idx.length) :
    (gatherRows rows idx).getD i 0 = (rows.getD i []).getD (idx.getD i 0) 0 := by
  unfold gatherRows
  have h : i < (List.zipWith (fun row j => row.getD j 0) rows idx).length := by
    rw [List.length_zipWith]
    exact lt_min h1 h2
  rw [List.getD_eq_getElem _ _ h, List.getElem_zipWith,
      List.getD_eq_getElem _ _ h1, List.getD_eq_getElem _ _ h2]

theorem getD_append_lt {α : Type} (l1 l2 : List α) (i : ℕ) (d : α) (h : i < l1.length) :
    (l1 ++ l2).getD i d = l1.getD i d := by
  have h' : i < (l1 ++ l2).length := by
    rw [List.length_append]
    omega
  rw [List.getD_eq_getElem _ _ h', List.getElem_append_left h, List.getD_eq_getElem _ _ h]

theorem getD_append_ge {α : Type} (l1 l2 : List α) (i : ℕ) (d : α)
    (h : l1.length ≤ i) (h2 : i - l1.length < l2.length) :
    (l1 ++ l2).getD i d = l2.getD (i - l1.length) d := by
  have h' : i < (l1 ++ l2).length := by
    rw [List.length_append]
    omega
  rw [List.getD_eq_getElem _ _ h', List.getElem_append_right h, List.getD_eq_getElem _ _ h2]

theorem td_target_getD (gamma : ℚ) (next_max reward : List ℚ) (step_type : List ℕ)
    (i : ℕ) (h1 : next_max.length = reward.length) (h2 : step_type.length = reward.length)
    (hi : i < reward.length) :
    (td_target gamma next_max reward step_type).getD i 0
      = if step_type.getD i 0 = 2 then reward.getD i 0
        else reward.getD i 0 + gamma * next_max.getD i 0 := by
  unfold td_target td_override td_target_raw
  have hi1 : i < next_max.length := by omega
  have hi2 : i < step_type.length := by omega
  have hzip : i < (step_type.zip reward).length := by
    rw [List.length_zip]
    omega
  have hraw : i < (List.zipWith (fun m r => m * gamma + r) next_max reward).length := by
    rw [List.length_zipWith]
    omega
  have houter : i < (List.zipWith (fun sr t => if sr.1 = 2 then sr.2 else t)
      (step_type.zip reward)
      (List.zipWith (fun m r => m * gamma + r) next_max reward)).length := by
    rw [List.length_zipWith, List.length_zip, List.length_zipWith]
    omega
  rw [List.getD_eq_getElem _ _ houter, List.getElem_zipWith, List.getElem_zip,
      List.getElem_zipWith, List.getD_eq_getElem _ _ hi2, List.getD_eq_getElem _ _ hi,
      List.getD_eq_getElem _ _ hi1]
  by_cases hc : step_type[i] = 2
  · simp [hc]
  · simp only [hc, if_false]
    ring

/-- **C1.** In `optimize`, for any head's target-network outputs `next_q`
(one value vector per sample), the TD target at batch index `i` equals
`reward[i] + gamma * next_max[i]` with `next_max[i]` the maximum of
`next_q[i]`, and wherever `step_type[i] == 2` (`StepType.LAST`) the target
is exactly `reward[i]` — the equation holds for every `gamma` and every
`next_q`, so the terminal target is independent of both. -/
theorem C1_td_target (gamma : ℚ) (next_q : List (List ℚ)) (reward : List ℚ)
    (step_type : List ℕ) (i : ℕ)
    (hq : next_q.length = reward.length) (hst : step_type.length = reward.length)
    (hi : i < reward.length) (hrow : next_q.getD i [] ≠ []) :
    ((td_target gamma (next_q.map rowMax) reward step_type).getD i 0
      = if step_type.getD i 0 = 2 then reward.getD i 0
        else reward.getD i 0 + gamma * rowMax (next_q.getD i []))
    ∧ rowMax (next_q.getD i []) ∈ next_q.getD i []
    ∧ ∀ x ∈ next_q.getD i [], x ≤ rowMax (next_q.getD i []) := by
  have hmap : (next_q.map rowMax).length = reward.length := by
    rw [List.length_map, hq]
  have h1 := td_target_getD gamma (next_q.map rowMax) reward step_type i hmap hst hi
  have hiq : i < next_q.length := by omega
  have hgd : (next_q.map rowMax).getD i 0 = rowMax (next_q.getD i []) := by
    rw [List.getD_eq_getElem _ _ (by rw [List.length_map]; exact hiq), List.getElem_map,
        List.getD_eq_getElem _ _ hiq]
  rw [hgd] at h1
  obtain ⟨hmem, hub⟩ := rowMax_spec _ hrow
  exact ⟨h1, hmem, hub⟩

/-- Witness for C1 at a concrete batch: `gamma = 9/10`,
`next_q = [[1,10,3],[5,2,0]]`, `reward = [1,100]`, `step_type = [1,2]`,
batch index `i = 0` (non-terminal, so the target bootstraps from the row
maximum 10). -/
theorem C1_td_target_witness :
    ([[(1:ℚ),10,3],[5,2,0]].length = [(1:ℚ),100].length)
    ∧ ([1,2].length = [(1:ℚ),100].length)
    ∧ 0 < [(1:ℚ),100].length
    ∧ [[(1:ℚ),10,3],[5,2,0]].getD 0 [] ≠ []
    ∧ (((td_target (9/10) ([[(1:ℚ),10,3],[5,2,0]].map rowMax) [1,100] [1,2]).getD 0 0
        = if [1,2].getD 0 0 = 2 then [(1:ℚ),100].getD 0 0
          else [(1:ℚ),100].getD 0 0
            + 9/10 * rowMax ([[(1:ℚ),10,3],[5,2,0]].getD 0 []))
      ∧ rowMax ([[(1:ℚ),10,3],[5,2,0]].getD 0 []) ∈ [[(1:ℚ),10,3],[5,2,0]].getD 0 []
      ∧ ∀ x ∈ [[(1:ℚ),10,3],[5,2,0]].getD 0 [],
          x ≤ rowMax ([[(1:ℚ),10,3],[5,2,0]].getD 0 [])) :=
  ⟨rfl, rfl, by decide, by decide,
    C1_td_target (9/10) [[1,10,3],[5,2,0]] [1,100] [1,2] 0 rfl rfl (by decide) (by decide)⟩

/-- `q_values_cat = torch.cat((state_action_values, x_q_values, y_q_values))`
(`optimize` line 226). -/
def combined_pred (b : OptimBatch) : List ℚ :=
  gatherRows b.q_action b.action ++ gatherRows b.q_x b.x_coord
    ++ gatherRows b.q_y b.y_coord

/-- `td_target_cat = torch.cat((td_target_actions, td_target_x_coord, td_target_y_coord))`
(`optimize` line 227). -/
def combined_td_target (gamma : ℚ) (b : OptimBatch) : List ℚ :=
  td_target gamma (b.next_q_action.map rowMax) b.reward b.step_type
    ++ td_target gamma (b.next_q_x.map rowMax) b.reward b.step_type
    ++ td_target gamma (b.next_q_y.map rowMax) b.reward b.step_type

theorem optimize_loss_eq (gamma : ℚ) (b : OptimBatch) :
    optimize_loss gamma b = mse_loss (combined_pred b) (combined_td_target gamma b) := rfl

theorem combined_pred_getD (b : OptimBatch) (B i : ℕ)
    (hqa : b.q_action.length = B) (hqx : b.q_x.length = B) (hqy : b.q_y.length = B)
    (ha : b.action.length = B) (hx : b.x_coord.length = B) (hy : b.y_coord.length = B)
    (hiB : i < B) :
    (combined_pred b).getD i 0
        = (b.q_action.getD i []).getD (b.action.getD i 0) 0
    ∧ (combined_pred b).getD (B + i) 0
        = (b.q_x.getD i []).getD (b.x_coord.getD i 0) 0
    ∧ (combined_pred b).getD (2 * B + i) 0
        = (b.q_y.getD i []).getD (b.y_coord.getD i 0) 0 := by
  have hg1 : (gatherRows b.q_action b.action).length = B := by
    rw [gatherRows_length, hqa, ha, min_self]
  have hg2 : (gatherRows b.q_x b.x_coord).length = B := by
    rw [gatherRows_length, hqx, hx, min_self]
  have hg3 : (gatherRows b.q_y b.y_coord).length = B := by
    rw [gatherRows_length, hqy, hy, min_self]
  refine ⟨?_, ?_, ?_⟩
  · unfold combined_pred
    rw [getD_append_lt _ _ _ _ (by rw [List.length_append, hg1, hg2]; omega),
        getD_append_lt _ _ _ _ (by rw [hg1]; omega),
        gatherRows_getD _ _ _ (by omega) (by omega)]
  · unfold combined_pred
    rw [getD_append_lt _ _ _ _ (by rw [List.length_append, hg1, hg2]; omega),
        getD_append_ge _ _ _ _ (by rw [hg1]; omega) (by rw [hg1, hg2]; omega),
        show B + i - (gatherRows b.q_action b.action).length = i by rw [hg1]; omega,
        gatherRows_getD _ _ _ (by omega) (by omega)]
  · unfold combined_pred
    rw [getD_append_ge _ _ _ _ (by rw [List.length_append, hg1, hg2]; omega)
          (by rw [List.length_append, hg1, hg2, hg3]; omega),
        show 2 * B + i - (gatherRows b.q_action b.action
            ++ gatherRows b.q_x b.x_coord).length = i by
          rw [List.length_append, hg1, hg2]; omega,
        gatherRows_getD _ _ _ (by omega) (by omega)]

set_option maxHeartbeats 1600000 in
/-- **C3.** For a rectangular batch of size `B`, `optimize` gathers each
head's online prediction at that head's chosen index (the three heads
occupy offsets `i`, `B + i`, `2B + i` of the concatenation), both
concatenations have length `3B`, and the returned loss is the mean squared
error over the combined pair, i.e. the sum of squared differences divided
by `3B`. -/
theorem C3_optimize_loss (gamma : ℚ) (b : OptimBatch) (B : ℕ)
    (hqa : b.q_action.length = B) (hqx : b.q_x.length = B) (hqy : b.q_y.length = B)
    (hna : b.next_q_action.length = B) (hnx : b.next_q_x.length = B)
    (hny : b.next_q_y.length = B)
    (ha : b.action.length = B) (hx : b.x_coord.length = B) (hy : b.y_coord.length = B)
    (hr : b.reward.length = B) (hs : b.step_type.length = B) :
    (combined_pred b).length = 3 * B
    ∧ (combined_td_target gamma b).length = 3 * B
    ∧ optimize_loss gamma b
        = (List.zipWith (fun a t => (a - t) ^ 2) (combined_pred b)
            (combined_td_target gamma b)).sum / ((3 * B : ℕ) : ℚ)
    ∧ (∀ i, i < B →
        (combined_pred b).getD i 0
            = (b.q_action.getD i []).getD (b.action.getD i 0) 0
        ∧ (combined_pred b).getD (B + i) 0
            = (b.q_x.getD i []).getD (b.x_coord.getD i 0) 0
        ∧ (combined_pred b).getD (2 * B + i) 0
            = (b.q_y.getD i []).getD (b.y_coord.getD i 0) 0) := by
  have hg1 : (gatherRows b.q_action b.action).length = B := by
    rw [gatherRows_length, hqa, ha, min_self]
  have hg2 : (gatherRows b.q_x b.x_coord).length = B := by
    rw [gatherRows_length, hqx, hx, min_self]
  have hg3 : (gatherRows b.q_y b.y_coord).length = B := by
    rw [gatherRows_length, hqy, hy, min_self]
  have ht1 : (td_target gamma (b.next_q_action.map rowMax) b.reward b.step_type).length = B := by
    rw [td_target_length _ _ _ _ (by rw [List.length_map, hna, hr]) (by rw [hs, hr]), hr]
  have ht2 : (td_target gamma (b.next_q_x.map rowMax) b.reward b.step_type).length = B := by
    rw [td_target_length _ _ _ _ (by rw [List.length_map, hnx, hr]) (by rw [hs, hr]), hr]
  have ht3 : (td_target gamma (b.next_q_y.map rowMax) b.reward b.step_type).length = B := by
    rw [td_target_length _ _ _ _ (by rw [List.length_map, hny, hr]) (by rw [hs, hr]), hr]
  have hplen : (combined_pred b).length = 3 * B := by
    unfold combined_pred
    rw [List.length_append, List.length_append, hg1, hg2, hg3]
    omega
  have htlen : (combined_td_target gamma b).length = 3 * B := by
    unfold combined_td_target
    rw [List.length_append, List.length_append, ht1, ht2, ht3]
    omega
  refine ⟨hplen, htlen, ?_, ?_⟩
  · rw [optimize_loss_eq]
    unfold mse_loss
    rw [hplen]
  · exact fun i hiB => combined_pred_getD b B i hqa hqx hqy ha hx hy hiB

/-- A concrete rectangular minibatch of size `B = 1`, used as witness input. -/
def exBatch : OptimBatch :=
  ⟨[[1,2]], [[3,4]], [[5,6]], [[1,0]], [[2,0]], [[3,0]], [1], [0], [1], [10], [1]⟩

/-- Witness for C3 at the concrete batch `exBatch` (`B = 1`). -/
theorem C3_optimize_loss_witness :
    (exBatch.q_action.length = 1 ∧ exBatch.reward.length = 1)
    ∧ ((combined_pred exBatch).length = 3 * 1
      ∧ (combined_td_target (9/10) exBatch).length = 3 * 1
      ∧ optimize_loss (9/10) exBatch
          = (List.zipWith (fun a t => (a - t) ^ 2) (combined_pred exBatch)
              (combined_td_target (9/10) exBatch)).sum / ((3 * 1 : ℕ) : ℚ)
      ∧ (∀ i, i < 1 →
          (combined_pred exBatch).getD i 0
              = (exBatch.q_action.getD i []).getD (exBatch.action.getD i 0) 0
          ∧ (combined_pred exBatch).getD (1 + i) 0
              = (exBatch.q_x.getD i []).getD (exBatch.x_coord.getD i 0) 0
          ∧ (combined_pred exBatch).getD (2 * 1 + i) 0
              = (exBatch.q_y.getD i []).getD (exBatch.y_coord.getD i 0) 0)) :=
  ⟨⟨rfl, rfl⟩, C3_optimize_loss (9/10) exBatch 1
    rfl rfl rfl rfl rfl rfl rfl rfl rfl rfl rfl⟩

/-! ## Target-network synchronization (`BaseAgent._build_model` lines 57-62,
`BaseAgent.update_target_net` lines 168-177)

`_build_model` constructs `optim.Adam(net.parameters(), lr=0.0001)` over the
online network's parameters only, so a gradient update is a function applied
to the online parameter vector alone.  `P` is the opaque parameter space of
`DQN()`. -/

/-- The long-lived mutable network state of the agent: online parameters
(`self.net`), target parameters (`self.target_net`), the pysc2 step counter
`self.steps` read by the cadence check, and `self.update_cnt`. -/
structure NetState (P : Type) where
  net : P
  target_net : P
  steps : ℕ
  update_cnt : ℕ

/-- `update_target_net()`: when `steps % target_update_period == 0`,
`self.target_net.load_state_dict(self.net.state_dict())` copies the online
parameters verbatim into the target network and bumps `update_cnt`;
otherwise nothing about the networks changes. -/
def update_target_net {P : Type} (period : ℕ) (s : NetState P) : NetState P :=
  if s.steps % period = 0 then
    { s with target_net := s.net, update_cnt := s.update_cnt + 1 }
  else s

/-- `optimizer.zero_grad(); loss.backward(); optimizer.step()`: the Adam
optimizer built in `_build_model` owns only `net.parameters()`, so the
gradient step transforms the online parameters by some update function `g`
and leaves the target parameters untouched. -/
def grad_step {P : Type} (g : P → P) (s : NetState P) : NetState P :=
  { s with net := g s.net }

/-- A sequence of gradient-only optimizer steps (no intervening sync). -/
def run_grad_steps {P : Type} (s : NetState P) (gs : List (P → P)) : NetState P :=
  gs.foldl (fun st g => grad_step g st) s

theorem run_grad_steps_target {P : Type} (s : NetState P) (gs : List (P → P)) :
    (run_grad_steps s gs).target_net = s.target_net := by
  induction gs generalizing s with
  | nil => rfl
  | cons g gs ih => exact (ih (grad_step g s)).trans rfl

/-- **C4.** Target parameters are mutated only by the sync operation: a
gradient step never touches them, `update_target_net` copies the online
parameters verbatim exactly when the cadence condition holds (and is the
identity otherwise), and after any sequence of gradient-only optimizer
steps following a sync, the target parameters still equal the online
snapshot taken at that sync. -/
theorem C4_target_sync {P : Type} (period : ℕ) (s : NetState P) (gs : List (P → P)) :
    (∀ g : P → P, (grad_step g s).target_net = s.target_net)
    ∧ (run_grad_steps s gs).target_net = s.target_net
    ∧ (s.steps % period = 0 →
        (update_target_net period s).target_net = s.net
        ∧ (run_grad_steps (update_target_net period s) gs).target_net = s.net)
    ∧ (¬ s.steps % period = 0 → update_target_net period s = s) := by
  refine ⟨fun g => rfl, run_grad_steps_target s gs, fun hc => ?_, fun hc => ?_⟩
  · constructor
    · unfold update_target_net
      rw [if_pos hc]
    · rw [run_grad_steps_target]
      unfold update_target_net
      rw [if_pos hc]
  · unfold update_target_net
    rw [if_neg hc]

/-- Witness for C4 over `P := ℤ` with `period = 2`, a state whose step
counter satisfies the cadence, and one subsequent gradient step. -/
theorem C4_target_sync_witness :
    ((4 : ℕ) % 2 = 0
      ∧ (update_target_net 2 (⟨7, 5, 4, 0⟩ : NetState ℤ)).target_net = 7
      ∧ (run_grad_steps (update_target_net 2 (⟨7, 5, 4, 0⟩ : NetState ℤ))
          [fun x => x + 1]).target_net = 7)
    ∧ (∀ g : ℤ → ℤ, (grad_step g (⟨7, 5, 4, 0⟩ : NetState ℤ)).target_net = 5) := by
  have h := C4_target_sync 2 (⟨7, 5, 4, 0⟩ : NetState ℤ) [fun x => x + 1]
  exact ⟨⟨by decide, (h.2.2.1 (by decide)).1, (h.2.2.1 (by decide)).2⟩, h.1⟩

/-! ## Reward shaping (`CompassAgent.reward_shaping`,
src/nico/assets/agents/BaseAgent.py lines 321-329) -/

/-- `reward_shaped = self.distance - self.distance_next;
if self.distance == 0.0: reward_shaped = 100; return reward_shaped`,
as a function of the two stored distances. -/
noncomputable def reward_shaping (distance distance_next : ℝ) : ℝ :=
  let reward_shaped := distance - distance_next
  if distance = 0 then 100 else reward_shaped

/-- **C5.** The shaped reward is the distance delta `d - d_next`, except
that `d = 0.0` (goal reached) overrides it to the fixed bonus 100
regardless of `d_next`; in particular distance 5.0 followed by 3.0 yields
2.0. -/
theorem C5_reward_shaping (d dn : ℝ) :
    (d ≠ 0 → reward_shaping d dn = d - dn)
    ∧ reward_shaping 0 dn = 100
    ∧ reward_shaping 5 3 = 2 := by
  refine ⟨fun hd => ?_, ?_, ?_⟩
  · simp [reward_shaping, hd]
  · simp [reward_shaping]
  · norm_num [reward_shaping]

/-- Witness for C5 at `d = 5`, `d_next = 3`. -/
theorem C5_reward_shaping_witness :
    (5 : ℝ) ≠ 0 ∧ reward_shaping 5 3 = 5 - 3 :=
  ⟨by norm_num, (C5_reward_shaping 5 3).1 (by norm_num)⟩

/-! ## Action legality (`BaseAgent.get_action` lines 86-105,
`SMART_ACTIONS` lines 26-29)

The pysc2 function ids: `actions.FUNCTIONS.no_op.id = 0`,
`actions.FUNCTIONS.select_army.id = 7`,
`actions.FUNCTIONS.Move_screen.id = 331`. -/

def no_op_id : ℕ := 0

def select_army_id : ℕ := 7

def Move_screen_id : ℕ := 331

/-- `SMART_ACTIONS = [no_op.id, select_army.id, Move_screen.id]`. -/
def SMART_ACTIONS : List ℕ := [no_op_id, select_army_id, Move_screen_id]

/-- A constructed pysc2 function call, as built by `get_action`. -/
inductive GameAction where
  | Move_screen (x y : ℕ)
  | select_army
  | no_op
deriving DecidableEq

/-- The pysc2 function id a constructed call invokes. -/
def GameAction.fn_id : GameAction → ℕ
  | .Move_screen _ _ => Move_screen_id
  | .select_army => select_army_id
  | .no_op => no_op_id

/-- `get_action(obs, action, x, y)`: if `can_do(obs, action)` holds, build
the call matching the id (`Move_screen("now",(x,y))`, `select_army("select")`
or `no_op()`); an available id matching none of the three falls off the end
of the `if` chain and returns Python `None`; an unavailable id takes the
`else` branch and returns `no_op()`. -/
def get_action (available_actions : List ℕ) (action x y : ℕ) : Option GameAction :=
  if action ∈ available_actions then
    if action = Move_screen_id then some (.Move_screen x y)
    else if action = select_army_id then some .select_army
    else if action = no_op_id then some .no_op
    else none
  else some .no_op

/-- **C9.** For every action id in `SMART_ACTIONS`, if the id is not in the
observation's `available_actions` then `get_action` returns `no_op()`; and
(since `no_op` itself is always available in pysc2) the call `get_action`
emits always invokes an available function id. -/
theorem C9_get_action_legal (avail : List ℕ) (action x y : ℕ)
    (ha : action ∈ SMART_ACTIONS) :
    (action ∉ avail → get_action avail action x y = some .no_op)
    ∧ (no_op_id ∈ avail →
        ∃ a : GameAction, get_action avail action x y = some a ∧ a.fn_id ∈ avail) := by
  constructor
  · intro hna
    unfold get_action
    rw [if_neg hna]
  · intro hno
    by_cases hav : action ∈ avail
    · simp only [SMART_ACTIONS, List.mem_cons, List.mem_singleton,
        List.not_mem_nil, or_false] at ha
      rcases ha with h0 | h7 | h331
      · refine ⟨.no_op, ?_, hno⟩
        unfold get_action
        rw [if_pos hav, if_neg (by rw [h0]; decide), if_neg (by rw [h0]; decide),
            if_pos (by rw [h0])]
      · refine ⟨.select_army, ?_, show select_army_id ∈ avail from h7 ▸ hav⟩
        unfold get_action
        rw [if_pos hav, if_neg (by rw [h7]; decide), if_pos (by rw [h7])]
      · refine ⟨.Move_screen x y, ?_, show Move_screen_id ∈ avail from h331 ▸ hav⟩
        unfold get_action
        rw [if_pos hav, if_pos (by rw [h331])]
    · refine ⟨.no_op, ?_, hno⟩
      unfold get_action
      rw [if_neg hav]

/-- Witness for C9: `select_army` (id 7) requested while only ids 0 and 331
are available. -/
theorem C9_get_action_legal_witness :
    select_army_id ∈ SMART_ACTIONS
    ∧ (select_army_id ∉ ([0, 331] : List ℕ) →
        get_action [0, 331] select_army_id 1 2 = some .no_op)
    ∧ (no_op_id ∈ ([0, 331] : List ℕ) →
        ∃ a : GameAction, get_action [0, 331] select_army_id 1 2 = some a
          ∧ a.fn_id ∈ ([0, 331] : List ℕ)) :=
  ⟨by decide,
    (C9_get_action_legal [0, 331] select_army_id 1 2 (by decide)).1,
    (C9_get_action_legal [0, 331] select_army_id 1 2 (by decide)).2⟩

/-! ## Direction translation (`CompassAgent.translate_to_PYSC2_action`,
src/nico/assets/agents/BaseAgent.py lines 228-247) -/

/-- The four compass smart actions (`SMART_ACTIONS_SIMPLE_NAVIGATION`). -/
inductive Direction where
  | left
  | up
  | right
  | down
deriving DecidableEq

/-- A pysc2 call emitted by the compass agent: `Move_screen("now", target)`
or `no_op()`. -/
inductive CompassAction where
  | Move_screen_to (target : ℚ × ℚ)
  | no_op
deriving DecidableEq

/-- `translate_to_PYSC2_action(action)` as a function of the availability of
`Move_screen` and of `self.marine_center`.  When `Move_screen` is available,
each matching direction returns a 4-pixel move guarded by the boundary test;
when the guard fails every later `if action is …` test also fails and the
Python function returns `None` (modelled as `none`).  When `Move_screen` is
unavailable, the `else` branch returns `no_op()`. -/
def translate_to_PYSC2_action (can_move : Bool) (marine_center : ℚ × ℚ)
    (action : Direction) : Option CompassAction :=
  if can_move then
    match action with
    | .left =>
        if ¬(marine_center.1 ≤ 0)
        then some (.Move_screen_to (marine_center.1 + -4, marine_center.2 + 0))
        else none
    | .up =>
        if ¬(marine_center.2 ≤ 0)
        then some (.Move_screen_to (marine_center.1 + 0, marine_center.2 + -4))
        else none
    | .right =>
        if ¬(marine_center.1 ≥ 83)
        then some (.Move_screen_to (marine_center.1 + 4, marine_center.2 + 0))
        else none
    | .down =>
        if ¬(marine_center.2 ≥ 63)
        then some (.Move_screen_to (marine_center.1 + 0, marine_center.2 + 4))
        else none
  else some .no_op

/-- **C10.** When `Move_screen` is available but the commanded direction
would cross the screen boundary (`left` with `x ≤ 0`, `up` with `y ≤ 0`,
`right` with `x ≥ 83`, `down` with `y ≥ 63`), the function returns `None` —
neither a clamped move nor a `no_op`; `no_op` is returned exactly when
`Move_screen` is unavailable. -/
theorem C10_boundary_none (mc : ℚ × ℚ) (action : Direction) :
    (translate_to_PYSC2_action false mc action = some .no_op)
    ∧ (action = .left → mc.1 ≤ 0 →
        translate_to_PYSC2_action true mc action = none)
    ∧ (action = .up → mc.2 ≤ 0 →
        translate_to_PYSC2_action true mc action = none)
    ∧ (action = .right → mc.1 ≥ 83 →
        translate_to_PYSC2_action true mc action = none)
    ∧ (action = .down → mc.2 ≥ 63 →
        translate_to_PYSC2_action true mc action = none) := by
  refine ⟨rfl, fun hl hb => ?_, fun hl hb => ?_, fun hl hb => ?_, fun hl hb => ?_⟩
  all_goals subst hl
  all_goals simp [translate_to_PYSC2_action, hb]

/-- Witness for C10: marine at the left screen edge `(0, 5)` commanded
`left`. -/
theorem C10_boundary_none_witness :
    (translate_to_PYSC2_action false ((0 : ℚ), (5 : ℚ)) .left = some .no_op)
    ∧ (((0 : ℚ), (5 : ℚ)).1 ≤ 0
      ∧ translate_to_PYSC2_action true ((0 : ℚ), (5 : ℚ)) .left = none) :=
  ⟨(C10_boundary_none ((0 : ℚ), (5 : ℚ)) .left).1,
    by norm_num,
    (C10_boundary_none ((0 : ℚ), (5 : ℚ)) .left).2.1 rfl (by norm_num)⟩

/-! ## Beacon/marine distance (`CompassAgent.calculate_distance` lines
296-319, `CompassAgent._xy_locs` lines 264-269)

`np.mean([], axis=0)` is the float `nan`, detected by
`isinstance(marine_center, float)` and replaced by `beacon_center`; an
empty beacon mask leaves `nan` in the distance, modelled as `none`. -/

/-- `screen == v`: the elementwise boolean mask of a feature layer. -/
def screen_mask (screen : List (List ℤ)) (v : ℤ) : List (List Bool) :=
  screen.map (fun row => row.map (fun p => p == v))

/-- `_xy_locs(mask)`: `y, x = mask.nonzero(); return list(zip(x, y))` — the
`(x, y)` positions of the true pixels in row-major order. -/
def xy_locs (mask : List (List Bool)) : List (ℚ × ℚ) :=
  (mask.enum.map (fun yrow =>
    yrow.2.enum.filterMap (fun xb =>
      if xb.2 then some ((xb.1 : ℚ), (yrow.1 : ℚ)) else none))).flatten

/-- `numpy`'s `.round()`: round to the nearest integer, ties to even. -/
def np_round (q : ℚ) : ℚ :=
  let f : ℤ := ⌊q⌋
  let r : ℚ := q - f
  if r < 1/2 then (f : ℚ)
  else if 1/2 < r then (f : ℚ) + 1
  else if f % 2 = 0 then (f : ℚ) else (f : ℚ) + 1

/-- `np.mean(pts, axis=0).round()`: per-coordinate mean of the point list,
rounded; `none` is the `nan` of an empty mean. -/
def mean_rounded (pts : List (ℚ × ℚ)) : Option (ℚ × ℚ) :=
  match pts with
  | [] => none
  | _ =>
      some (np_round ((pts.map Prod.fst).sum / pts.length),
            np_round ((pts.map Prod.snd).sum / pts.length))

/-- `math.hypot`. -/
noncomputable def hypot (x y : ℝ) : ℝ := Real.sqrt (x ^ 2 + y ^ 2)

/-- `calculate_distance(screen_player_relative, screen_selected)`: marine
center from the `screen_selected == 1` mask, beacon center from the
`screen_player_relative == 3` mask; when the marine mean is the empty-mean
`nan`, fall back to `marine_center = beacon_center`; distance is
`math.hypot(beacon[0] - marine[0], beacon[1] - marine[1])`.  Returns
`(beacon_center, marine_center, distance)`; `none` models the all-`nan`
result of an empty beacon mask. -/
noncomputable def calculate_distance (screen_player_relative screen_selected :
    List (List ℤ)) : Option ((ℚ × ℚ) × (ℚ × ℚ) × ℝ) :=
  (mean_rounded (xy_locs (screen_mask screen_player_relative 3))).map
    (fun beacon_center =>
      let marine_center :=
        (mean_rounded (xy_locs (screen_mask screen_selected 1))).getD beacon_center
      (beacon_center, marine_center,
        hypot ((beacon_center.1 - marine_center.1 : ℚ) : ℝ)
              ((beacon_center.2 - marine_center.2 : ℚ) : ℝ)))

theorem hypot_zero : hypot 0 0 = 0 := by
  simp [hypot]

theorem hypot_three_four : hypot 3 4 = 5 := by
  unfold hypot
  rw [show (3 : ℝ) ^ 2 + 4 ^ 2 = 5 ^ 2 by norm_num, Real.sqrt_sq (by norm_num)]

/-- Screen with a beacon pixel (value 3) at `(x, y) = (3, 4)`. -/
def exPlayerRelative : List (List ℤ) :=
  [[0,0,0,0], [0,0,0,0], [0,0,0,0], [0,0,0,0], [0,0,0,3]]

/-- Selection screen with the marine pixel at `(0, 0)`. -/
def exSelectedMarine : List (List ℤ) :=
  [[1,0,0,0], [0,0,0,0], [0,0,0,0], [0,0,0,0], [0,0,0,0]]

/-- Selection screen with no selected pixel: the marine mask is empty. -/
def exSelectedEmpty : List (List ℤ) :=
  [[0,0,0,0], [0,0,0,0], [0,0,0,0], [0,0,0,0], [0,0,0,0]]

/-- **C6 counterexample.** With the beacon at `(3, 4)`: the current
observation puts the marine at `(0, 0)` (distance 5); the next observation
has an empty marine mask, so the fallback makes its distance 0; the shaped
reward is then `5 - 0 = 5`, which is not zero — refuting the claim that the
fallback yields a zero shaped-reward delta. -/
theorem C6_counterexample :
    calculate_distance exPlayerRelative exSelectedMarine
        = some ((3, 4), (0, 0), 5)
    ∧ calculate_distance exPlayerRelative exSelectedEmpty
        = some ((3, 4), (3, 4), 0)
    ∧ reward_shaping 5 0 = 5
    ∧ (5 : ℝ) ≠ 0 := by
  have hxyb : xy_locs (screen_mask exPlayerRelative 3) = [(3, 4)] := by decide
  have hxym : xy_locs (screen_mask exSelectedMarine 1) = [(0, 0)] := by decide
  have hb : mean_rounded (xy_locs (screen_mask exPlayerRelative 3)) = some (3, 4) := by
    rw [hxyb]
    norm_num [mean_rounded, np_round]
  have hm : mean_rounded (xy_locs (screen_mask exSelectedMarine 1)) = some (0, 0) := by
    rw [hxym]
    norm_num [mean_rounded, np_round]
  have he : mean_rounded (xy_locs (screen_mask exSelectedEmpty 1)) = none := by
    decide
  refine ⟨?_, ?_, ?_, by norm_num⟩
  · unfold calculate_distance
    rw [hb, hm]
    simp only [Option.map_some', Option.getD_some, Option.some_inj, Prod.mk.injEq]
    norm_num
    exact hypot_three_four
  · unfold calculate_distance
    rw [hb, he]
    simp only [Option.map_some', Option.getD_none, Option.some_inj, Prod.mk.injEq]
    norm_num
    exact hypot_zero
  · norm_num [reward_shaping]

/-- **C6 amended.** When the marine mask is empty, `calculate_distance`
falls back to treating the undefined marine center as equal to the beacon
center, so that observation's distance is exactly 0 — a defined value
rather than a propagated `nan`; the shaped reward built from such a
degenerate next observation is then the defined value
`if d = 0 then 100 else d` (the current distance, or the goal bonus), not
necessarily zero. -/
theorem C6_empty_mean_fallback (spr ssel : List (List ℤ)) (d : ℝ)
    (hm : xy_locs (screen_mask ssel 1) = [])
    (hb : xy_locs (screen_mask spr 3) ≠ []) :
    (∃ bc : ℚ × ℚ, calculate_distance spr ssel = some (bc, bc, 0))
    ∧ reward_shaping d 0 = if d = 0 then 100 else d := by
  constructor
  · obtain ⟨bc, hbc⟩ : ∃ bc, mean_rounded (xy_locs (screen_mask spr 3)) = some bc := by
      rcases hxl : xy_locs (screen_mask spr 3) with - | ⟨pt, rest⟩
      · exact absurd hxl hb
      · exact ⟨_, rfl⟩
    refine ⟨bc, ?_⟩
    unfold calculate_distance
    rw [hbc, hm]
    simp only [Option.map_some', mean_rounded, Option.getD_none, Option.some_inj,
      Prod.mk.injEq, eq_self_iff_true, true_and]
    rw [show ((bc.1 - bc.1 : ℚ) : ℝ) = 0 by push_cast; ring,
        show ((bc.2 - bc.2 : ℚ) : ℝ) = 0 by push_cast; ring]
    exact hypot_zero
  · by_cases hd : d = 0
    · simp [reward_shaping, hd]
    · simp [reward_shaping, hd]

/-- Witness for the amended C6 at the concrete degenerate screens and
current distance 5. -/
theorem C6_empty_mean_fallback_witness :
    xy_locs (screen_mask exSelectedEmpty 1) = []
    ∧ xy_locs (screen_mask exPlayerRelative 3) ≠ []
    ∧ ((∃ bc : ℚ × ℚ, calculate_distance exPlayerRelative exSelectedEmpty
          = some (bc, bc, 0))
      ∧ reward_shaping 5 0 = if (5 : ℝ) = 0 then 100 else 5) :=
  ⟨by decide, by decide,
    C6_empty_mean_fallback exPlayerRelative exSelectedEmpty 5 (by decide) (by decide)⟩

/-! ## Greedy action selection (`BaseAgent.choose_action` lines 135-146,
`CompassAgent.choose_action` lines 214-224)

`np.argmax` returns the index of the first occurrence of the maximum of a
value vector. -/

/-- `np.argmax` on one value vector: index of the maximum entry, first
occurrence on ties (`numpy` documents first-occurrence tie-breaking). -/
def np_argmax : List ℚ → ℕ
  | [] => 0
  | x :: xs =>
      let j := np_argmax xs
      if x < xs.getD j x then j + 1 else 0

/-- `i` is the index of the first maximum of `l`: in bounds, no entry
exceeds `l[i]`, and every earlier entry is strictly below `l[i]`. -/
def is_first_argmax (l : List ℚ) (i : ℕ) : Prop :=
  i < l.length
    ∧ (∀ j, j < l.length → l.getD j 0 ≤ l.getD i 0)
    ∧ (∀ j, j < i → l.getD j 0 < l.getD i 0)

/-- The greedy branch of `choose_action`:
`action_idx = np.argmax(action_q_values)`, `x_coord = np.argmax(x_coord_q_values)`,
`y_coord = np.argmax(y_coord_q_values)` — one `argmax` per head, each over
its own value vector only. -/
def greedy_indices (action_q x_coord_q y_coord_q : List ℚ) : ℕ × ℕ × ℕ :=
  (np_argmax action_q, np_argmax x_coord_q, np_argmax y_coord_q)

theorem np_argmax_cons (x : ℚ) (xs : List ℚ) :
    np_argmax (x :: xs)
      = if x < xs.getD (np_argmax xs) x then np_argmax xs + 1 else 0 := rfl

theorem np_argmax_spec (l : List ℚ) (h : l ≠ []) :
    is_first_argmax l (np_argmax l) := by
  induction l with
  | nil => exact absurd rfl h
  | cons x xs ih =>
      rcases eq_or_ne xs [] with hxs | hxs
      · subst hxs
        refine ⟨by simp [np_argmax], ?_, ?_⟩
        · intro j hj
          simp only [List.length_cons, List.length_nil] at hj
          have hj0 : j = 0 := by omega
          subst hj0
          have h0 : np_argmax [x] = 0 := by simp [np_argmax]
          rw [h0]
        · intro j hj
          simp [np_argmax] at hj
      · obtain ⟨hlt, hmax, hfirst⟩ := ih hxs
        have hgd : xs.getD (np_argmax xs) x = xs.getD (np_argmax xs) 0 := by
          rw [List.getD_eq_getElem _ _ hlt, List.getD_eq_getElem _ _ hlt]
        rw [np_argmax_cons, hgd]
        by_cases hc : x < xs.getD (np_argmax xs) 0
        · rw [if_pos hc]
          refine ⟨by simpa using Nat.succ_lt_succ hlt, ?_, ?_⟩
          · intro j hj
            rw [List.getD_cons_succ]
            match j with
            | 0 =>
                rw [List.getD_cons_zero]
                exact hc.le
            | j + 1 =>
                rw [List.getD_cons_succ]
                exact hmax j (by simpa using hj)
          · intro j hj
            rw [List.getD_cons_succ]
            match j with
            | 0 =>
                rw [List.getD_cons_zero]
                exact hc
            | j + 1 =>
                rw [List.getD_cons_succ]
                exact hfirst j (by omega)
        · rw [if_neg hc]
          push_neg at hc
          refine ⟨by simp, ?_, ?_⟩
          · intro j hj
            rw [List.getD_cons_zero]
            match j with
            | 0 => exact le_refl _
            | j + 1 =>
                rw [List.getD_cons_succ]
                exact le_trans (hmax j (by simpa using hj)) hc
          · intro j hj
            omega

/-- **C8.** In the greedy branch, the chosen index for each head (action,
x-coordinate, y-coordinate) is `np.argmax` of that head's own value vector,
computed independently of the other heads, and `np_argmax` picks the first
(lowest) index on ties: it is in bounds, no entry exceeds it, and all
earlier entries are strictly smaller. -/
theorem C8_greedy_argmax (aq xq yq : List ℚ)
    (ha : aq ≠ []) (hx : xq ≠ []) (hy : yq ≠ []) :
    greedy_indices aq xq yq = (np_argmax aq, np_argmax xq, np_argmax yq)
    ∧ is_first_argmax aq (np_argmax aq)
    ∧ is_first_argmax xq (np_argmax xq)
    ∧ is_first_argmax yq (np_argmax yq) :=
  ⟨rfl, np_argmax_spec aq ha, np_argmax_spec xq hx, np_argmax_spec yq hy⟩

/-- Witness for C8 at concrete value vectors; `[1, 3, 3]` has its maximum
tied at indices 1 and 2 and `np_argmax` picks 1, the first. -/
theorem C8_greedy_argmax_witness :
    ([(1:ℚ), 3, 3] ≠ []) ∧ ([(2:ℚ), 2] ≠ []) ∧ ([(5:ℚ)] ≠ [])
    ∧ np_argmax [(1:ℚ), 3, 3] = 1
    ∧ (greedy_indices [(1:ℚ), 3, 3] [(2:ℚ), 2] [(5:ℚ)]
          = (np_argmax [(1:ℚ), 3, 3], np_argmax [(2:ℚ), 2], np_argmax [(5:ℚ)])
      ∧ is_first_argmax [(1:ℚ), 3, 3] (np_argmax [(1:ℚ), 3, 3])
      ∧ is_first_argmax [(2:ℚ), 2] (np_argmax [(2:ℚ), 2])
      ∧ is_first_argmax [(5:ℚ)] (np_argmax [(5:ℚ)])) :=
  ⟨by decide, by decide, by decide, by decide,
    C8_greedy_argmax [1, 3, 3] [2, 2] [5] (by decide) (by decide) (by decide)⟩

end SC2Agent
